import Mathlib

/-!
# Verification of the dartboard layout geometry engine

Shallow embedding of `src/utils/dartboard_layout.py` (class `DartboardLayout`):
the physical constants of a regulation dartboard, the precomputed invalid radius
intervals, and the two validation functions `validate_radius` and `validate_angle`.

Modelling choices:
* Radii and the interval-snapping logic (`validate_radius`) use only field
  arithmetic and order comparisons, so they are embedded polymorphically over a
  `LinearOrderedField` and can be evaluated exactly at `ℚ` (every Python float
  value is a rational number).
* `validate_angle` uses `math.asin` and `math.pi`, so it is embedded over `ℝ`
  with `Real.arcsin` and `Real.pi`.  Python's float modulo `a % b` (for `b > 0`)
  is modelled exactly as `a - b * ⌊a / b⌋` (`realMod` below).
* Decimal constants such as `6.35` are modelled as exact rationals.
-/

namespace DartboardLayout

variable {α : Type*} [LinearOrderedField α]

/-- Ring radius in mm (WDF standards): inner bull, `6.35`. -/
@[simp] def R_INNER_BULL : α := 6.35

/-- Ring radius in mm: outer bull, `15.9`. -/
@[simp] def R_OUTER_BULL : α := 15.9

/-- Ring radius in mm: inner treble, `97.4`. -/
@[simp] def R_INNER_TREBLE : α := 97.4

/-- Ring radius in mm: outer treble, `107.4`. -/
@[simp] def R_OUTER_TREBLE : α := 107.4

/-- Ring radius in mm: inner double, `160.0`. -/
@[simp] def R_INNER_DOUBLE : α := 160.0

/-- Ring radius in mm: outer double, `170.0`. -/
@[simp] def R_OUTER_DOUBLE : α := 170.0

/-- Wire diameter in mm: inner bull wire, `1.2`. -/
@[simp] def D_INNER_BULL_WIRE : α := 1.2

/-- Wire diameter in mm: outer bull wire, `1.2`. -/
@[simp] def D_OUTER_BULL_WIRE : α := 1.2

/-- Wire diameter in mm: treble wire, `1.0`. -/
@[simp] def D_TREBLE_WIRE : α := 1.0

/-- Wire diameter in mm: double wire, `1.0`. -/
@[simp] def D_DOUBLE_WIRE : α := 1.0

/-- Default dart tip radius in mm, `1.1`. -/
@[simp] def DEFAULT_R_TIP : α := 1.1

/-- `DartboardLayout._calculate_invalid_intervals`: the six invalid radius
intervals (in mm, open) where a dart of tip radius `r_tip` would hit a wire,
in the fixed scan order bull-in, bull-out, treble-in, treble-out, double-in,
double-out. -/
def invalid_intervals (r_tip : α) : List (α × α) :=
  [(R_INNER_BULL - r_tip, R_INNER_BULL + D_INNER_BULL_WIRE + r_tip),
   (R_OUTER_BULL - r_tip, R_OUTER_BULL + D_OUTER_BULL_WIRE + r_tip),
   (R_INNER_TREBLE - D_TREBLE_WIRE - r_tip, R_INNER_TREBLE + r_tip),
   (R_OUTER_TREBLE - D_TREBLE_WIRE - r_tip, R_OUTER_TREBLE + r_tip),
   (R_INNER_DOUBLE - D_DOUBLE_WIRE - r_tip, R_INNER_DOUBLE + r_tip),
   (R_OUTER_DOUBLE - D_DOUBLE_WIRE - r_tip, R_OUTER_DOUBLE + r_tip)]

/-- The `for`-loop body of `validate_radius`: scan the intervals in order and,
at the first interval strictly containing `r_mm`, snap `r_mm` to the closer
endpoint (`if dist_to_start < dist_to_end: r_mm = start else: r_mm = end`,
then `break`). -/
def snapFirst : List (α × α) → α → α
  | [], r_mm => r_mm
  | (s, e) :: rest, r_mm =>
    if s < r_mm ∧ r_mm < e then
      if |r_mm - s| < |e - r_mm| then s else e
    else snapFirst rest r_mm

/-- `DartboardLayout.validate_radius`: convert the radius to mm, snap it out of
the first invalid interval strictly containing it (if any), convert back to
meters. -/
def validate_radius (r_tip radius_m : α) : α :=
  snapFirst (invalid_intervals r_tip) (radius_m * 1000.0) / 1000.0

/-- Python's float modulo `a % b` in exact arithmetic (for the uses below the
modulus is positive): `a - b * ⌊a / b⌋`. -/
noncomputable def realMod (a b : ℝ) : ℝ := a - b * ⌊a / b⌋

/-- `DartboardLayout.validate_angle`: gate on the radial band `[15.8, 180.0]`
mm, guard the arcsine domain, and push the angle out of the angular exclusion
zone of width `dtheta = asin(margin_mm / r_mm)` around the nearest radial wire
(wires sit at odd multiples of `π/20`; shifting by half a segment puts them at
multiples of the segment width `2π/20`). -/
noncomputable def validate_angle (r_tip radius_m angle_rad : ℝ) : ℝ :=
  let r_mm := radius_m * 1000.0
  if ¬(15.8 ≤ r_mm ∧ r_mm ≤ 180.0) then angle_rad else
  let margin_mm := 0.6 + r_tip
  if margin_mm ≥ r_mm then angle_rad else
  let dtheta := Real.arcsin (margin_mm / r_mm)
  let segment_angle := 2 * Real.pi / 20
  let half_segment := segment_angle / 2
  let angle_shifted := angle_rad + half_segment
  let angle_mod := realMod angle_shifted segment_angle
  let dist_wire := min angle_mod (segment_angle - angle_mod)
  if dist_wire < dtheta then
    if angle_mod < half_segment then angle_rad + (dtheta - dist_wire)
    else angle_rad - (dtheta - dist_wire)
  else angle_rad

/-- The shifted-segment distance of an angle to the nearest radial wire, as
computed inside `validate_angle` (`dist_to_wire` in the source). -/
noncomputable def dist_to_wire (angle_rad : ℝ) : ℝ :=
  let segment_angle := 2 * Real.pi / 20
  let half_segment := segment_angle / 2
  let angle_mod := realMod (angle_rad + half_segment) segment_angle
  min angle_mod (segment_angle - angle_mod)

/-! ## Helper lemmas about `realMod` -/

theorem realMod_eq_fract (a b : ℝ) (hb : b ≠ 0) : realMod a b = b * Int.fract (a / b) := by
  rw [realMod, Int.fract, mul_sub, mul_div_cancel₀ _ hb]

theorem realMod_nonneg (a b : ℝ) (hb : 0 < b) : 0 ≤ realMod a b := by
  rw [realMod_eq_fract a b hb.ne']
  exact mul_nonneg hb.le (Int.fract_nonneg _)

theorem realMod_lt (a b : ℝ) (hb : 0 < b) : realMod a b < b := by
  rw [realMod_eq_fract a b hb.ne']
  calc b * Int.fract (a / b) < b * 1 :=
        mul_lt_mul_of_pos_left (Int.fract_lt_one _) hb
    _ = b := mul_one b

theorem realMod_add_self (a b : ℝ) (hb : b ≠ 0) : realMod (a + b) b = realMod a b := by
  rw [realMod, realMod, add_div, div_self hb, Int.floor_add_one, Int.cast_add,
    Int.cast_one, mul_add, mul_one]
  ring

theorem realMod_eq_self (a b : ℝ) (h0 : 0 ≤ a) (hab : a < b) : realMod a b = a := by
  have hb : 0 < b := lt_of_le_of_lt h0 hab
  have hfl : ⌊a / b⌋ = 0 := by
    rw [Int.floor_eq_zero_iff]
    exact ⟨div_nonneg h0 hb.le, by rw [div_lt_one hb]; exact hab⟩
  rw [realMod, hfl]
  simp

theorem realMod_self (b : ℝ) (hb : b ≠ 0) : realMod b b = 0 := by
  rw [realMod, div_self hb]
  simp

/-! ## Helper lemmas about `validate_angle` -/

theorem validate_angle_of_gate_fail (r_tip radius_m angle_rad : ℝ)
    (h : ¬(15.8 ≤ radius_m * 1000.0 ∧ radius_m * 1000.0 ≤ 180.0)) :
    validate_angle r_tip radius_m angle_rad = angle_rad := by
  simp only [validate_angle]
  rw [if_pos h]

theorem validate_angle_of_margin_ge (r_tip radius_m angle_rad : ℝ)
    (hg : 15.8 ≤ radius_m * 1000.0 ∧ radius_m * 1000.0 ≤ 180.0)
    (hm : 0.6 + r_tip ≥ radius_m * 1000.0) :
    validate_angle r_tip radius_m angle_rad = angle_rad := by
  simp only [validate_angle]
  rw [if_neg (not_not_intro hg), if_pos hm]

theorem validate_angle_eq (r_tip radius_m angle_rad : ℝ)
    (hg : 15.8 ≤ radius_m * 1000.0 ∧ radius_m * 1000.0 ≤ 180.0)
    (hm : ¬(0.6 + r_tip ≥ radius_m * 1000.0)) :
    validate_angle r_tip radius_m angle_rad =
      if dist_to_wire angle_rad <
          Real.arcsin ((0.6 + r_tip) / (radius_m * 1000.0)) then
        if realMod (angle_rad + 2 * Real.pi / 20 / 2) (2 * Real.pi / 20) <
            2 * Real.pi / 20 / 2 then
          angle_rad + (Real.arcsin ((0.6 + r_tip) / (radius_m * 1000.0)) -
            dist_to_wire angle_rad)
        else
          angle_rad - (Real.arcsin ((0.6 + r_tip) / (radius_m * 1000.0)) -
            dist_to_wire angle_rad)
      else angle_rad := by
  simp only [validate_angle, dist_to_wire]
  rw [if_neg (not_not_intro hg), if_neg hm]

theorem dist_to_wire_nonneg (angle_rad : ℝ) : 0 ≤ dist_to_wire angle_rad := by
  have hseg : (0 : ℝ) < 2 * Real.pi / 20 := by positivity
  simp only [dist_to_wire]
  refine le_min (realMod_nonneg _ _ hseg) ?_
  have := realMod_lt (angle_rad + 2 * Real.pi / 20 / 2) _ hseg
  linarith

/-! ## Helper lemmas about `snapFirst` -/

theorem snapFirst_append (pre l : List (α × α)) (x : α)
    (h : ∀ p ∈ pre, ¬(p.1 < x ∧ x < p.2)) :
    snapFirst (pre ++ l) x = snapFirst l x := by
  induction pre with
  | nil => rfl
  | cons p pre ih =>
    obtain ⟨s, e⟩ := p
    rw [List.cons_append, snapFirst, if_neg (h _ (List.mem_cons_self _ _))]
    exact ih fun q hq => h q (List.mem_cons_of_mem _ hq)

theorem snapFirst_of_forall_not (l : List (α × α)) (x : α)
    (h : ∀ p ∈ l, ¬(p.1 < x ∧ x < p.2)) :
    snapFirst l x = x := by
  induction l with
  | nil => rfl
  | cons p l ih =>
    obtain ⟨s, e⟩ := p
    rw [snapFirst, if_neg (h _ (List.mem_cons_self _ _))]
    exact ih fun q hq => h q (List.mem_cons_of_mem _ hq)

theorem snapFirst_nonneg (l : List (α × α)) (x : α)
    (hl : ∀ p ∈ l, 0 ≤ p.1 ∧ 0 ≤ p.2) (hx : 0 ≤ x) :
    0 ≤ snapFirst l x := by
  induction l with
  | nil => exact hx
  | cons p l ih =>
    obtain ⟨s, e⟩ := p
    rw [snapFirst]
    split_ifs with h1 h2
    · exact (hl _ (List.mem_cons_self _ _)).1
    · exact (hl _ (List.mem_cons_self _ _)).2
    · exact ih fun q hq => hl q (List.mem_cons_of_mem _ hq)

theorem validate_radius_mm (r_tip radius_m : α) :
    validate_radius r_tip radius_m * 1000.0 =
      snapFirst (invalid_intervals r_tip) (radius_m * 1000.0) := by
  rw [validate_radius, div_mul_cancel₀]
  norm_num

theorem validate_radius_first_match (r_tip radius_m s e : α)
    (pre post : List (α × α))
    (hsplit : invalid_intervals r_tip = pre ++ (s, e) :: post)
    (hpre : ∀ p ∈ pre, ¬(p.1 < radius_m * 1000.0 ∧ radius_m * 1000.0 < p.2))
    (hin : s < radius_m * 1000.0 ∧ radius_m * 1000.0 < e) :
    validate_radius r_tip radius_m * 1000.0 =
      if |radius_m * 1000.0 - s| < |e - radius_m * 1000.0| then s else e := by
  rw [validate_radius_mm, hsplit, snapFirst_append _ _ _ hpre, snapFirst, if_pos hin]

/-! ## Claims -/

/-- C1: for every tip radius and every input radius whose millimeter value lies
strictly inside the first invalid interval `(s, e)` (in the fixed scan order)
that contains it, `validate_radius` returns a value whose millimeter form is
`s` or `e` — whichever is strictly nearer — and in particular not strictly
inside `(s, e)`; later intervals in the list do not affect the result. -/
theorem validate_radius_snaps_first_interval (r_tip radius_m s e : α)
    (pre post : List (α × α))
    (hsplit : invalid_intervals r_tip = pre ++ (s, e) :: post)
    (hpre : ∀ p ∈ pre, ¬(p.1 < radius_m * 1000.0 ∧ radius_m * 1000.0 < p.2))
    (hin : s < radius_m * 1000.0 ∧ radius_m * 1000.0 < e) :
    (validate_radius r_tip radius_m * 1000.0 = s ∨
      validate_radius r_tip radius_m * 1000.0 = e) ∧
    (|radius_m * 1000.0 - s| < |e - radius_m * 1000.0| →
      validate_radius r_tip radius_m * 1000.0 = s) ∧
    (|e - radius_m * 1000.0| < |radius_m * 1000.0 - s| →
      validate_radius r_tip radius_m * 1000.0 = e) ∧
    ¬(s < validate_radius r_tip radius_m * 1000.0 ∧
      validate_radius r_tip radius_m * 1000.0 < e) := by
  have h := validate_radius_first_match r_tip radius_m s e pre post hsplit hpre hin
  by_cases hlt : |radius_m * 1000.0 - s| < |e - radius_m * 1000.0|
  · rw [if_pos hlt] at h
    refine ⟨Or.inl h, fun _ => h, fun hgt => (lt_asymm hlt hgt).elim, ?_⟩
    rw [h]
    rintro ⟨hc, -⟩
    exact lt_irrefl _ hc
  · rw [if_neg hlt] at h
    refine ⟨Or.inr h, fun hc => (hlt hc).elim, fun _ => h, ?_⟩
    rw [h]
    rintro ⟨-, hc⟩
    exact lt_irrefl _ hc

theorem validate_radius_snaps_first_interval_witness :
    (validate_radius (1.1 : ℚ) 0.006 * 1000.0 = 5.25 ∨
      validate_radius (1.1 : ℚ) 0.006 * 1000.0 = 8.65) ∧
    (|(0.006 : ℚ) * 1000.0 - 5.25| < |8.65 - (0.006 : ℚ) * 1000.0| →
      validate_radius (1.1 : ℚ) 0.006 * 1000.0 = 5.25) ∧
    (|8.65 - (0.006 : ℚ) * 1000.0| < |(0.006 : ℚ) * 1000.0 - 5.25| →
      validate_radius (1.1 : ℚ) 0.006 * 1000.0 = 8.65) ∧
    ¬(5.25 < validate_radius (1.1 : ℚ) 0.006 * 1000.0 ∧
      validate_radius (1.1 : ℚ) 0.006 * 1000.0 < 8.65) :=
  validate_radius_snaps_first_interval 1.1 0.006 5.25 8.65 []
    [(14.8, 18.2), (95.3, 98.5), (105.3, 108.5), (157.9, 161.1), (167.9, 171.1)]
    (by norm_num [invalid_intervals]) (by simp) (by norm_num)

/-- C2 counterexample: with the default tip radius `1.1`, the radius `6.95` mm
(`0.00695` m) lies strictly inside the first invalid interval `(5.25, 8.65)`
and is exactly equidistant from both endpoints, yet `validate_radius` snaps it
to the END `8.65`, not to the start `5.25` as the claim states: the comparison
`dist_to_start < dist_to_end` is false on a tie, so the `else` branch assigns
the end. -/
theorem validate_radius_tie_counterexample :
    (invalid_intervals (1.1 : ℚ)).head? = some (5.25, 8.65) ∧
    (5.25 < (0.00695 : ℚ) * 1000.0 ∧ (0.00695 : ℚ) * 1000.0 < 8.65) ∧
    |(0.00695 : ℚ) * 1000.0 - 5.25| = |8.65 - (0.00695 : ℚ) * 1000.0| ∧
    validate_radius (1.1 : ℚ) 0.00695 * 1000.0 = 8.65 ∧
    validate_radius (1.1 : ℚ) 0.00695 * 1000.0 ≠ 5.25 := by
  norm_num [validate_radius, invalid_intervals, snapFirst, abs_of_nonneg]

/-- C2 (amended): for every tip radius and every input radius strictly inside
the first matching invalid interval and exactly equidistant from its start and
end, `validate_radius` snaps it to the interval's END (the `<` comparison for
"start is closer" fails on an exact tie, so the else branch assigns the end). -/
theorem validate_radius_tie_goes_to_end (r_tip radius_m s e : α)
    (pre post : List (α × α))
    (hsplit : invalid_intervals r_tip = pre ++ (s, e) :: post)
    (hpre : ∀ p ∈ pre, ¬(p.1 < radius_m * 1000.0 ∧ radius_m * 1000.0 < p.2))
    (hin : s < radius_m * 1000.0 ∧ radius_m * 1000.0 < e)
    (htie : |radius_m * 1000.0 - s| = |e - radius_m * 1000.0|) :
    validate_radius r_tip radius_m * 1000.0 = e := by
  have h := validate_radius_first_match r_tip radius_m s e pre post hsplit hpre hin
  rw [if_neg (by rw [htie]; exact lt_irrefl _)] at h
  exact h

theorem validate_radius_tie_goes_to_end_witness :
    validate_radius (1.1 : ℚ) 0.00695 * 1000.0 = 8.65 :=
  validate_radius_tie_goes_to_end 1.1 0.00695 5.25 8.65 []
    [(14.8, 18.2), (95.3, 98.5), (105.3, 108.5), (157.9, 161.1), (167.9, 171.1)]
    (by norm_num [invalid_intervals]) (by simp) (by norm_num) (by norm_num)

/-- C3 counterexample: with tip radius `5` mm the six intervals overlap, and for
`radius = 0.013` m (`13` mm) the first matching interval is the SECOND one,
`(10.9, 22.1)`; the first interval `(1.35, 12.55)` was tested (and does not
contain `13`), yet the snapped output `10.9` mm lies strictly inside it.  So the
output CAN lie strictly inside an interval tested before the single correction,
contradicting the claim. -/
theorem validate_radius_earlier_interval_counterexample :
    invalid_intervals (5 : ℚ) =
      [(1.35, 12.55), (10.9, 22.1), (91.4, 102.4), (101.4, 112.4), (154, 165), (164, 175)] ∧
    ¬(1.35 < (0.013 : ℚ) * 1000.0 ∧ (0.013 : ℚ) * 1000.0 < 12.55) ∧
    (10.9 < (0.013 : ℚ) * 1000.0 ∧ (0.013 : ℚ) * 1000.0 < 22.1) ∧
    validate_radius (5 : ℚ) 0.013 * 1000.0 = 10.9 ∧
    (1.35 < validate_radius (5 : ℚ) 0.013 * 1000.0 ∧
      validate_radius (5 : ℚ) 0.013 * 1000.0 < 12.55) := by
  norm_num [validate_radius, invalid_intervals, snapFirst, abs_of_nonneg]

/-- C3 (amended): for every tip radius, the value returned by
`validate_radius`, converted to millimeters, is never strictly inside the first
matching interval of the scan; with the DEFAULT tip radius `1.1` it is
additionally not strictly inside any interval tested earlier in the scan order
(for overlapping intervals at other tip radii the output can land inside an
earlier-tested interval). -/
theorem validate_radius_not_in_tested_intervals (r_tip radius_m s e : α)
    (pre post : List (α × α))
    (hsplit : invalid_intervals r_tip = pre ++ (s, e) :: post)
    (hpre : ∀ p ∈ pre, ¬(p.1 < radius_m * 1000.0 ∧ radius_m * 1000.0 < p.2))
    (hin : s < radius_m * 1000.0 ∧ radius_m * 1000.0 < e) :
    ¬(s < validate_radius r_tip radius_m * 1000.0 ∧
      validate_radius r_tip radius_m * 1000.0 < e) ∧
    (r_tip = 1.1 → ∀ p ∈ pre,
      ¬(p.1 < validate_radius r_tip radius_m * 1000.0 ∧
        validate_radius r_tip radius_m * 1000.0 < p.2)) := by
  have h := validate_radius_first_match r_tip radius_m s e pre post hsplit hpre hin
  have hmem : validate_radius r_tip radius_m * 1000.0 = s ∨
      validate_radius r_tip radius_m * 1000.0 = e := by
    by_cases hlt : |radius_m * 1000.0 - s| < |e - radius_m * 1000.0|
    · rw [if_pos hlt] at h; exact Or.inl h
    · rw [if_neg hlt] at h; exact Or.inr h
  have hse : s < e := lt_trans hin.1 hin.2
  constructor
  · rcases hmem with h' | h' <;> rw [h'] <;> rintro ⟨hc1, hc2⟩
    · exact lt_irrefl _ hc1
    · exact lt_irrefl _ hc2
  · rintro rfl p hp
    have hpw : List.Pairwise (fun p q : α × α => p.2 < q.1)
        (invalid_intervals (1.1 : α)) := by
      norm_num [invalid_intervals, List.pairwise_cons]
    rw [hsplit, List.pairwise_append] at hpw
    have hps : p.2 < s := hpw.2.2 p hp (s, e) (List.mem_cons_self _ _)
    rcases hmem with h' | h' <;> rw [h'] <;> rintro ⟨hc1, hc2⟩
    · exact lt_asymm hps hc2
    · exact lt_asymm (lt_trans hps hse) hc2

theorem validate_radius_not_in_tested_intervals_witness :
    ¬(14.8 < validate_radius (1.1 : ℚ) 0.016 * 1000.0 ∧
      validate_radius (1.1 : ℚ) 0.016 * 1000.0 < 18.2) ∧
    ¬(5.25 < validate_radius (1.1 : ℚ) 0.016 * 1000.0 ∧
      validate_radius (1.1 : ℚ) 0.016 * 1000.0 < 8.65) := by
  have h := validate_radius_not_in_tested_intervals (1.1 : ℚ) 0.016 14.8 18.2
    [(5.25, 8.65)] [(95.3, 98.5), (105.3, 108.5), (157.9, 161.1), (167.9, 171.1)]
    (by norm_num [invalid_intervals]) (by norm_num) (by norm_num)
  exact ⟨h.1, h.2 rfl (5.25, 8.65) (by simp)⟩

/-- C10: with the default tip radius `1.1`, the six precomputed invalid
intervals are listed in strictly increasing order (each end below the next
start), pairwise disjoint, with strictly positive endpoints; consequently at
most one interval matches any radius, and `validate_radius` maps every
non-negative radius to a non-negative radius. -/
theorem default_invalid_intervals_sorted_disjoint :
    List.Chain' (fun p q : ℚ × ℚ => p.2 < q.1) (invalid_intervals (1.1 : ℚ)) ∧
    List.Pairwise (fun p q : ℚ × ℚ => p.2 ≤ q.1 ∨ q.2 ≤ p.1)
      (invalid_intervals (1.1 : ℚ)) ∧
    (∀ p ∈ invalid_intervals (1.1 : ℚ), 0 < p.1 ∧ 0 < p.2) ∧
    (∀ r_mm : ℚ, ∀ p ∈ invalid_intervals (1.1 : ℚ), ∀ q ∈ invalid_intervals (1.1 : ℚ),
      p.1 < r_mm ∧ r_mm < p.2 → q.1 < r_mm ∧ r_mm < q.2 → p = q) ∧
    (∀ radius_m : ℚ, 0 ≤ radius_m → 0 ≤ validate_radius (1.1 : ℚ) radius_m) := by
  have hpair : List.Pairwise (fun p q : ℚ × ℚ => p.2 ≤ q.1 ∨ q.2 ≤ p.1)
      (invalid_intervals (1.1 : ℚ)) := by
    norm_num [invalid_intervals, List.pairwise_cons]
  refine ⟨?_, hpair, ?_, ?_, ?_⟩
  · norm_num [invalid_intervals, List.chain'_cons]
  · norm_num [invalid_intervals]
  · intro r_mm p hp q hq hpr hqr
    by_contra hne
    have hsym : Symmetric (fun p q : ℚ × ℚ => p.2 ≤ q.1 ∨ q.2 ≤ p.1) :=
      fun a b hab => hab.symm
    rcases hpair.forall hsym hp hq hne with h | h
    · exact absurd (lt_of_le_of_lt (le_of_lt hpr.1) hpr.2) (fun _ => by linarith [hpr.2, hqr.1])
    · exact absurd (lt_of_le_of_lt (le_of_lt hqr.1) hqr.2) (fun _ => by linarith [hqr.2, hpr.1])
  · intro radius_m hr
    have h0 : 0 ≤ snapFirst (invalid_intervals (1.1 : ℚ)) (radius_m * 1000.0) := by
      refine snapFirst_nonneg _ _ ?_ (by positivity)
      norm_num [invalid_intervals]
    rw [validate_radius]
    exact div_nonneg h0 (by norm_num)

theorem default_invalid_intervals_sorted_disjoint_witness :
    ((5.25, 8.65) : ℚ × ℚ) = (5.25, 8.65) ∧ 0 ≤ validate_radius (1.1 : ℚ) 0.016 :=
  ⟨default_invalid_intervals_sorted_disjoint.2.2.2.1 6
      (5.25, 8.65) (by norm_num [invalid_intervals])
      (5.25, 8.65) (by norm_num [invalid_intervals])
      (by norm_num) (by norm_num),
    default_invalid_intervals_sorted_disjoint.2.2.2.2 0.016 (by norm_num)⟩

/-- C5: for every tip radius and every angle, `validate_angle` returns the
angle unchanged whenever the radius in millimeters is outside the closed band
`[15.8, 180.0]` (i.e. below `15.8` or above `180.0`). -/
theorem validate_angle_gate_unchanged (r_tip radius_m angle_rad : ℝ)
    (h : radius_m * 1000.0 < 15.8 ∨ 180.0 < radius_m * 1000.0) :
    validate_angle r_tip radius_m angle_rad = angle_rad := by
  apply validate_angle_of_gate_fail
  rcases h with h | h
  · rintro ⟨h1, -⟩; linarith
  · rintro ⟨-, h2⟩; linarith

theorem validate_angle_gate_unchanged_witness :
    validate_angle 1.1 0.005 0.7 = 0.7 ∧ validate_angle 1.1 0.2 0.7 = 0.7 :=
  ⟨validate_angle_gate_unchanged 1.1 0.005 0.7 (by norm_num),
    validate_angle_gate_unchanged 1.1 0.2 0.7 (by norm_num)⟩

/-- C7: the arcsine in `validate_angle` is never evaluated outside its domain:
whenever `margin_mm = 0.6 + r_tip ≥ r_mm` the function returns the angle
unchanged before the arcsine is reached, and whenever the arcsine is actually
reached (gate passed and `margin_mm < r_mm`, with a physical, non-negative tip
radius) its argument lies strictly between `0` and `1`. -/
theorem validate_angle_arcsin_domain_guard (r_tip radius_m angle_rad : ℝ) :
    (0.6 + r_tip ≥ radius_m * 1000.0 →
      validate_angle r_tip radius_m angle_rad = angle_rad) ∧
    (0 ≤ r_tip → 15.8 ≤ radius_m * 1000.0 → radius_m * 1000.0 ≤ 180.0 →
      0.6 + r_tip < radius_m * 1000.0 →
      0 < (0.6 + r_tip) / (radius_m * 1000.0) ∧
        (0.6 + r_tip) / (radius_m * 1000.0) < 1) := by
  constructor
  · intro hm
    by_cases hg : 15.8 ≤ radius_m * 1000.0 ∧ radius_m * 1000.0 ≤ 180.0
    · exact validate_angle_of_margin_ge _ _ _ hg hm
    · exact validate_angle_of_gate_fail _ _ _ hg
  · intro ht h1 h2 hlt
    have hpos : (0 : ℝ) < radius_m * 1000.0 := by linarith
    exact ⟨div_pos (by linarith) hpos, by rw [div_lt_one hpos]; exact hlt⟩

theorem validate_angle_arcsin_domain_guard_witness :
    validate_angle 1.1 0.001 0.3 = 0.3 ∧
    (0 < (0.6 + 1.1) / ((0.1 : ℝ) * 1000.0) ∧
      (0.6 + 1.1) / ((0.1 : ℝ) * 1000.0) < 1) :=
  ⟨(validate_angle_arcsin_domain_guard 1.1 0.001 0.3).1 (by norm_num),
    (validate_angle_arcsin_domain_guard 1.1 0.1 0).2 (by norm_num) (by norm_num)
      (by norm_num) (by norm_num)⟩

/-- C8: `validate_angle` is periodic modulo one segment width: shifting the
input angle by `2π/20` shifts the output by exactly `2π/20`, for every tip
radius and radius. -/
theorem validate_angle_periodic (r_tip radius_m angle_rad : ℝ) :
    validate_angle r_tip radius_m (angle_rad + 2 * Real.pi / 20) =
      validate_angle r_tip radius_m angle_rad + 2 * Real.pi / 20 := by
  by_cases hg : 15.8 ≤ radius_m * 1000.0 ∧ radius_m * 1000.0 ≤ 180.0
  · by_cases hm : 0.6 + r_tip ≥ radius_m * 1000.0
    · rw [validate_angle_of_margin_ge _ _ _ hg hm,
        validate_angle_of_margin_ge _ _ _ hg hm]
    · rw [validate_angle_eq _ _ _ hg hm, validate_angle_eq _ _ _ hg hm]
      have hmod : realMod (angle_rad + 2 * Real.pi / 20 + 2 * Real.pi / 20 / 2)
          (2 * Real.pi / 20) =
          realMod (angle_rad + 2 * Real.pi / 20 / 2) (2 * Real.pi / 20) := by
        rw [show angle_rad + 2 * Real.pi / 20 + 2 * Real.pi / 20 / 2 =
            angle_rad + 2 * Real.pi / 20 / 2 + 2 * Real.pi / 20 by ring]
        exact realMod_add_self _ _ (by positivity)
      have hdw : dist_to_wire (angle_rad + 2 * Real.pi / 20) =
          dist_to_wire angle_rad := by
        simp only [dist_to_wire]
        rw [hmod]
      rw [hdw, hmod]
      split_ifs <;> ring
  · rw [validate_angle_of_gate_fail _ _ _ hg, validate_angle_of_gate_fail _ _ _ hg]

/-- C9 counterexample: the claim quantifies over EVERY tip radius, but for a
tip radius below `-0.6` mm the margin `0.6 + r_tip` is negative, `dtheta` is a
negative arcsine, and the (unchanged) output violates the claimed bound
`|output − input| ≤ dtheta`: at `r_tip = -2`, `radius = 0.1` m, `angle = 0`
the difference is `0` but `dtheta = asin(-0.014) < 0`. -/
theorem validate_angle_correction_bounded_counterexample :
    validate_angle (-2) 0.1 0 - 0 = 0 ∧
    ¬(|validate_angle (-2) 0.1 0 - 0| ≤
      Real.arcsin ((0.6 + (-2)) / ((0.1 : ℝ) * 1000.0))) := by
  have hθ : Real.arcsin ((0.6 + (-2 : ℝ)) / ((0.1 : ℝ) * 1000.0)) < 0 := by
    rw [show ((0.6 + (-2 : ℝ)) / ((0.1 : ℝ) * 1000.0)) = -(1.4 / 100) by norm_num,
      Real.arcsin_neg]
    simp only [neg_neg, Left.neg_neg_iff]
    exact Real.arcsin_pos.mpr (by norm_num)
  have hval : validate_angle (-2 : ℝ) 0.1 0 = 0 := by
    rw [validate_angle_eq (-2) 0.1 0 (by norm_num) (by norm_num)]
    exact if_neg (not_lt.mpr (le_trans hθ.le (dist_to_wire_nonneg 0)))
  constructor
  · rw [hval, sub_zero]
  · rw [hval, sub_zero, abs_zero]
    exact not_le.mpr hθ

/-- C9 (amended): for every tip radius whose margin `0.6 + r_tip` is
non-negative, every radius passing the `[15.8, 180.0]` mm gate and the arcsine
guard, and every angle, `|validate_angle output − input| ≤ dtheta`; when the
gate or the guard fails, the difference is exactly zero. -/
theorem validate_angle_correction_bounded (r_tip radius_m angle_rad : ℝ)
    (hmargin : 0 ≤ 0.6 + r_tip) :
    (15.8 ≤ radius_m * 1000.0 → radius_m * 1000.0 ≤ 180.0 →
      0.6 + r_tip < radius_m * 1000.0 →
      |validate_angle r_tip radius_m angle_rad - angle_rad| ≤
        Real.arcsin ((0.6 + r_tip) / (radius_m * 1000.0))) ∧
    (¬(15.8 ≤ radius_m * 1000.0 ∧ radius_m * 1000.0 ≤ 180.0) ∨
        radius_m * 1000.0 ≤ 0.6 + r_tip →
      validate_angle r_tip radius_m angle_rad - angle_rad = 0) := by
  constructor
  · intro h1 h2 hlt
    rw [validate_angle_eq _ _ _ ⟨h1, h2⟩ (not_le.mpr hlt)]
    have h0 : 0 ≤ dist_to_wire angle_rad := dist_to_wire_nonneg angle_rad
    have hθ0 : 0 ≤ Real.arcsin ((0.6 + r_tip) / (radius_m * 1000.0)) :=
      Real.arcsin_nonneg.mpr (div_nonneg hmargin (by linarith))
    split_ifs with hc hb
    · rw [show angle_rad + (Real.arcsin ((0.6 + r_tip) / (radius_m * 1000.0)) -
          dist_to_wire angle_rad) - angle_rad =
          Real.arcsin ((0.6 + r_tip) / (radius_m * 1000.0)) -
            dist_to_wire angle_rad by ring,
        abs_of_nonneg (by linarith)]
      linarith
    · rw [show angle_rad - (Real.arcsin ((0.6 + r_tip) / (radius_m * 1000.0)) -
          dist_to_wire angle_rad) - angle_rad =
          -(Real.arcsin ((0.6 + r_tip) / (radius_m * 1000.0)) -
            dist_to_wire angle_rad) by ring,
        abs_neg, abs_of_nonneg (by linarith)]
      linarith
    · rw [sub_self, abs_zero]
      exact hθ0
  · intro h
    rcases h with h | h
    · rw [validate_angle_of_gate_fail _ _ _ h, sub_self]
    · by_cases hg : 15.8 ≤ radius_m * 1000.0 ∧ radius_m * 1000.0 ≤ 180.0
      · rw [validate_angle_of_margin_ge _ _ _ hg h, sub_self]
      · rw [validate_angle_of_gate_fail _ _ _ hg, sub_self]

theorem validate_angle_correction_bounded_witness :
    |validate_angle 1.1 0.1 0.2 - 0.2| ≤
      Real.arcsin ((0.6 + 1.1) / ((0.1 : ℝ) * 1000.0)) :=
  (validate_angle_correction_bounded 1.1 0.1 0.2 (by norm_num)).1
    (by norm_num) (by norm_num) (by norm_num)

/-- C6: for every pair of a radius whose millimeter value is not strictly
inside any of the six invalid intervals and an angle outside the angular wire
margin for that radius (shifted-segment distance to the nearer wire at least
`dtheta`, or radius failing the `[15.8, 180.0]` mm gate), both `validate_radius`
and `validate_angle` are fixed points. -/
theorem validate_pair_fixed_points (r_tip radius_m angle_rad : ℝ)
    (hr : ∀ p ∈ invalid_intervals r_tip,
      ¬(p.1 < radius_m * 1000.0 ∧ radius_m * 1000.0 < p.2))
    (ha : Real.arcsin ((0.6 + r_tip) / (radius_m * 1000.0)) ≤
        dist_to_wire angle_rad ∨
      ¬(15.8 ≤ radius_m * 1000.0 ∧ radius_m * 1000.0 ≤ 180.0)) :
    validate_radius r_tip radius_m = radius_m ∧
    validate_angle r_tip radius_m angle_rad = angle_rad := by
  constructor
  · rw [validate_radius, snapFirst_of_forall_not _ _ hr]
    field_simp
  · rcases ha with ha | hgf
    · by_cases hg : 15.8 ≤ radius_m * 1000.0 ∧ radius_m * 1000.0 ≤ 180.0
      · by_cases hm : 0.6 + r_tip ≥ radius_m * 1000.0
        · exact validate_angle_of_margin_ge _ _ _ hg hm
        · rw [validate_angle_eq _ _ _ hg hm]
          exact if_neg (not_lt.mpr ha)
      · exact validate_angle_of_gate_fail _ _ _ hg
    · exact validate_angle_of_gate_fail _ _ _ hgf

theorem validate_pair_fixed_points_witness :
    validate_radius (1.1 : ℝ) 0.2 = 0.2 ∧ validate_angle 1.1 0.2 0.4 = 0.4 :=
  validate_pair_fixed_points 1.1 0.2 0.4
    (by norm_num [invalid_intervals]) (Or.inr (by norm_num))

/-! ## Numeric bounds for the default-geometry angle claim -/

theorem margin_ratio_lt_sin : (1.7 / 100 : ℝ) < Real.sin (Real.pi / 20) := by
  have h1 : (3.14 : ℝ) < Real.pi := Real.pi_gt_d2
  have h2 : Real.pi < 3.15 := Real.pi_lt_d2
  have hx : (0 : ℝ) < Real.pi / 20 := by linarith
  have hx1 : Real.pi / 20 ≤ 1 := by linarith
  have h := Real.sin_gt_sub_cube hx hx1
  nlinarith [sq_nonneg (Real.pi / 20)]

theorem arcsin_margin_lt : Real.arcsin (1.7 / 100) < Real.pi / 20 := by
  have hs := margin_ratio_lt_sin
  have h1 : Real.arcsin (1.7 / 100) < Real.arcsin (Real.sin (Real.pi / 20)) :=
    Real.strictMonoOn_arcsin ⟨by norm_num, by norm_num⟩
      ⟨Real.neg_one_le_sin _, Real.sin_le_one _⟩ hs
  rwa [Real.arcsin_sin (by linarith [Real.pi_pos])
    (by linarith [Real.pi_pos])] at h1

/-- C4: with the default tip radius `1.1` mm and radius `0.1` m (`100` mm,
`dtheta = asin(1.7/100)`), an angle exactly on a wire boundary (`π/20`) is
mapped to a value whose shifted-segment distance to the wire is at least
`dtheta`, and the angle at the exact center of a segment (`0`) is returned
unchanged. -/
theorem validate_angle_wire_boundary_default :
    Real.arcsin ((0.6 + 1.1) / ((0.1 : ℝ) * 1000.0)) ≤
      dist_to_wire (validate_angle 1.1 0.1 (Real.pi / 20)) ∧
    validate_angle 1.1 0.1 0 = 0 := by
  have harg : ((0.6 + 1.1) / ((0.1 : ℝ) * 1000.0)) = (1.7 / 100 : ℝ) := by norm_num
  have hseg : (0 : ℝ) < 2 * Real.pi / 20 := by positivity
  have hθpos : 0 < Real.arcsin (1.7 / 100) := Real.arcsin_pos.mpr (by norm_num)
  have hθlt := arcsin_margin_lt
  have hπ : (0 : ℝ) < Real.pi := Real.pi_pos
  constructor
  · have hval : validate_angle 1.1 0.1 (Real.pi / 20) =
        Real.pi / 20 + Real.arcsin (1.7 / 100) := by
      rw [validate_angle_eq 1.1 0.1 _ (by norm_num) (by norm_num), harg]
      have hmod : realMod (Real.pi / 20 + 2 * Real.pi / 20 / 2)
          (2 * Real.pi / 20) = 0 := by
        rw [show Real.pi / 20 + 2 * Real.pi / 20 / 2 = 2 * Real.pi / 20 by ring]
        exact realMod_self _ (ne_of_gt hseg)
      have hdw : dist_to_wire (Real.pi / 20) = 0 := by
        simp only [dist_to_wire]
        rw [hmod, sub_zero]
        exact min_eq_left hseg.le
      rw [hdw, hmod, if_pos hθpos,
        if_pos (by positivity : (0 : ℝ) < 2 * Real.pi / 20 / 2), sub_zero]
    rw [hval, harg]
    have hmod2 : realMod (Real.pi / 20 + Real.arcsin (1.7 / 100) +
        2 * Real.pi / 20 / 2) (2 * Real.pi / 20) = Real.arcsin (1.7 / 100) := by
      rw [show Real.pi / 20 + Real.arcsin (1.7 / 100) + 2 * Real.pi / 20 / 2 =
          Real.arcsin (1.7 / 100) + 2 * Real.pi / 20 by ring,
        realMod_add_self _ _ (ne_of_gt hseg)]
      exact realMod_eq_self _ _ hθpos.le (by linarith)
    simp only [dist_to_wire]
    rw [hmod2]
    exact le_min le_rfl (by linarith)
  · rw [validate_angle_eq 1.1 0.1 0 (by norm_num) (by norm_num), harg]
    have hmod : realMod ((0 : ℝ) + 2 * Real.pi / 20 / 2) (2 * Real.pi / 20) =
        (0 : ℝ) + 2 * Real.pi / 20 / 2 :=
      realMod_eq_self _ _ (by positivity) (by linarith)
    have hdw : dist_to_wire (0 : ℝ) = Real.pi / 20 := by
      simp only [dist_to_wire]
      rw [hmod, show (0 : ℝ) + 2 * Real.pi / 20 / 2 = Real.pi / 20 by ring,
        show 2 * Real.pi / 20 - Real.pi / 20 = Real.pi / 20 by ring, min_self]
    rw [hdw]
    exact if_neg (not_lt.mpr hθlt.le)

end DartboardLayout
